import Mathlib

/-!
Verification of the pagecord chat application's string transforms and
Firestore glue code.  JavaScript strings that undergo character-level
manipulation (sorting, joining with `"_"`, splitting on `"_"`) are embedded
as `List Char`; strings that are only stored and compared are embedded as
Lean `String`.
-/

/-- A JavaScript string viewed as its character sequence. -/
abbrev JStr := List Char

/-- Strict lexicographic (code-unit-wise) comparison of two JavaScript
strings, as used by `Array.prototype.sort()`'s default comparator. -/
def lexLt : JStr → JStr → Bool
  | [], [] => false
  | [], _ :: _ => true
  | _ :: _, [] => false
  | a :: as, b :: bs => if a < b then true else if b < a then false else lexLt as bs

/-- Non-strict lexicographic comparison of two JavaScript strings. -/
def lexLe : JStr → JStr → Bool
  | [], _ => true
  | _ :: _, [] => false
  | a :: as, b :: bs => if a < b then true else if b < a then false else lexLe as bs

/-- `[a, b].sort()` for a two-element JavaScript array: the pair in
ascending lexicographic order (the default sort is stable, so an already
ordered pair is returned unchanged). -/
def sortPair (a b : JStr) : List JStr := if lexLt b a then [b, a] else [a, b]

/-- `parts.join("_")`: the parts interleaved with the underscore
delimiter and concatenated. -/
def joinUnderscore (parts : List JStr) : JStr := (List.intersperse ['_'] parts).flatten

/-- The chat identifier computed by `createOrGetChat` (src/src/lib/api.ts
line 144) and by the legacy `makeChat` (src/unnamed/part_000 line 48):
`[currentUsername, targetUsername].sort().join("_")`. -/
def chatIdOf (currentUsername targetUsername : JStr) : JStr :=
  joinUnderscore (sortPair currentUsername targetUsername)

/-- The chat identifier as the specification words it: the two usernames
sorted lexicographically, joined with the underscore character. -/
def specChatId (u v : JStr) : JStr :=
  joinUnderscore (if lexLe u v then [u, v] else [v, u])

/-- `s.split(sep)` of JavaScript for a one-character separator. -/
def splitOnChar (sep : Char) : JStr → List JStr
  | [] => [[]]
  | c :: cs =>
    if c = sep then [] :: splitOnChar sep cs
    else
      match splitOnChar sep cs with
      | [] => [[c]]
      | p :: ps => (c :: p) :: ps

/-- `getOtherUsername` (src/src/lib/api.ts lines 364-381) and the legacy
`getOtherUser` (src/unnamed/part_000 lines 182-187): split the chat id on
`"_"`, require exactly two participants, and return the first participant
different from `currentUsername`; the JavaScript `otherUser ||
participants[0]` falls back to the first participant when the found one is
absent or the empty (falsy) string. -/
def getOtherUsername (chatId currentUsername : JStr) : Option JStr :=
  if chatId = [] then none
  else if currentUsername = [] then none
  else
    let participants := splitOnChar '_' chatId
    if participants.length ≠ 2 then none
    else
      match participants.find? (fun username => !(username == currentUsername)) with
      | some otherUser => if otherUser = [] then some (participants.headD []) else some otherUser
      | none => some (participants.headD [])

theorem lexLt_asymm : ∀ a b : JStr, lexLt a b = true → lexLt b a = false := by
  intro a
  induction a with
  | nil =>
    intro b _
    cases b with
    | nil => rfl
    | cons c cs => rfl
  | cons c cs ih =>
    intro b h
    cases b with
    | nil => simp [lexLt] at h
    | cons d ds =>
      simp only [lexLt] at h ⊢
      rcases lt_trichotomy c d with hcd | hcd | hcd
      · simp [hcd, not_lt_of_lt hcd]
      · subst hcd
        simp only [lt_irrefl, if_false] at h ⊢
        exact ih ds h
      · simp [hcd, not_lt_of_lt hcd] at h

theorem lexLt_total_eq : ∀ a b : JStr, lexLt a b = false → lexLt b a = false → a = b := by
  intro a
  induction a with
  | nil =>
    intro b h1 _
    cases b with
    | nil => rfl
    | cons c cs => simp [lexLt] at h1
  | cons c cs ih =>
    intro b h1 h2
    cases b with
    | nil => simp [lexLt] at h2
    | cons d ds =>
      simp only [lexLt] at h1 h2
      rcases lt_trichotomy c d with hcd | hcd | hcd
      · simp [hcd] at h1
      · subst hcd
        simp only [lt_irrefl, if_false] at h1 h2
        rw [ih ds h1 h2]
      · simp [hcd] at h2

theorem lexLe_eq_not_lexLt : ∀ a b : JStr, lexLe a b = !lexLt b a := by
  intro a
  induction a with
  | nil =>
    intro b
    cases b with
    | nil => rfl
    | cons c cs => rfl
  | cons c cs ih =>
    intro b
    cases b with
    | nil => rfl
    | cons d ds =>
      simp only [lexLe, lexLt]
      rcases lt_trichotomy c d with hcd | hcd | hcd
      · simp [hcd, not_lt_of_lt hcd]
      · subst hcd
        simp only [lt_irrefl, if_false]
        exact ih ds
      · simp [hcd, not_lt_of_lt hcd]

theorem chatIdOf_comm (u v : JStr) : chatIdOf u v = chatIdOf v u := by
  unfold chatIdOf sortPair
  cases hvu : lexLt v u with
  | true =>
    have huv : lexLt u v = false := lexLt_asymm v u hvu
    simp [hvu, huv]
  | false =>
    cases huv : lexLt u v with
    | true => simp [hvu, huv]
    | false =>
      have : v = u := lexLt_total_eq v u hvu huv
      simp [this]

theorem chatIdOf_eq_specChatId (u v : JStr) : chatIdOf u v = specChatId u v := by
  unfold chatIdOf specChatId sortPair
  rw [lexLe_eq_not_lexLt]
  cases hvu : lexLt v u <;> simp

/-- **C1.** For every pair of usernames, the chat identifier produced by
`createOrGetChat` (and by the legacy `makeChat`, which computes the same
`[a, b].sort().join("_")` expression) equals the two usernames sorted
lexicographically and joined with the underscore character, and the
identifier is symmetric in the two users. -/
theorem chatId_sorted_join_and_symmetric (u v : JStr) :
    chatIdOf u v = specChatId u v ∧ chatIdOf u v = chatIdOf v u :=
  ⟨chatIdOf_eq_specChatId u v, chatIdOf_comm u v⟩

theorem splitOnChar_no_sep (sep : Char) :
    ∀ v : JStr, sep ∉ v → splitOnChar sep v = [v] := by
  intro v
  induction v with
  | nil => intro _; rfl
  | cons c cs ih =>
    intro h
    have hc : c ≠ sep := fun hcs => h (hcs ▸ List.mem_cons_self c cs)
    have hcs : sep ∉ cs := fun hm => h (List.mem_cons_of_mem c hm)
    simp only [splitOnChar, if_neg hc, ih hcs]

theorem splitOnChar_join (sep : Char) (u v : JStr) (hu : sep ∉ u) (hv : sep ∉ v) :
    splitOnChar sep (u ++ sep :: v) = [u, v] := by
  induction u with
  | nil =>
    show splitOnChar sep (sep :: v) = [[], v]
    simp [splitOnChar, splitOnChar_no_sep sep v hv]
  | cons c cs ih =>
    have hc : c ≠ sep := fun hcs => hu (hcs ▸ List.mem_cons_self c cs)
    have hcs : sep ∉ cs := fun hm => hu (List.mem_cons_of_mem c hm)
    show splitOnChar sep (c :: (cs ++ sep :: v)) = [c :: cs, v]
    rw [splitOnChar, if_neg hc, ih hcs]

theorem joinUnderscore_pair (a b : JStr) : joinUnderscore [a, b] = a ++ '_' :: b := by
  simp [joinUnderscore, List.intersperse]

theorem getOtherUsername_join_left (a b : JStr) (hab : a ≠ b) (ha : a ≠ []) (hb : b ≠ [])
    (hda : '_' ∉ a) (hdb : '_' ∉ b) :
    getOtherUsername (a ++ '_' :: b) a = some b := by
  have hchat : (a ++ '_' :: b) ≠ [] := by simp
  simp only [getOtherUsername, if_neg hchat, if_neg ha, splitOnChar_join '_' a b hda hdb]
  have hba : (b == a) = false := by
    rw [beq_eq_false_iff_ne]
    exact Ne.symm hab
  simp [List.find?, hba, hb]

theorem getOtherUsername_join_right (a b : JStr) (hab : a ≠ b) (ha : a ≠ []) (hb : b ≠ [])
    (hda : '_' ∉ a) (hdb : '_' ∉ b) :
    getOtherUsername (a ++ '_' :: b) b = some a := by
  have hchat : (a ++ '_' :: b) ≠ [] := by simp
  simp only [getOtherUsername, if_neg hchat, if_neg hb, splitOnChar_join '_' a b hda hdb]
  have hab' : (a == b) = false := by
    rw [beq_eq_false_iff_ne]
    exact hab
  simp [List.find?, hab', ha]

/-- **C2.** Round trip of the chat-id transform: for distinct non-empty
usernames that do not contain the underscore delimiter, splitting the
derived identifier recovers the other participant. -/
theorem getOtherUsername_roundTrip (u v : JStr) (hne : u ≠ v) (hu : u ≠ []) (hv : v ≠ [])
    (hud : '_' ∉ u) (hvd : '_' ∉ v) :
    getOtherUsername (chatIdOf u v) u = some v ∧ getOtherUsername (chatIdOf u v) v = some u := by
  unfold chatIdOf sortPair
  cases hvu : lexLt v u with
  | true =>
    rw [if_pos rfl, joinUnderscore_pair]
    exact ⟨getOtherUsername_join_right v u (Ne.symm hne) hv hu hvd hud,
           getOtherUsername_join_left v u (Ne.symm hne) hv hu hvd hud⟩
  | false =>
    rw [if_neg (by simp), joinUnderscore_pair]
    exact ⟨getOtherUsername_join_left u v hne hu hv hud hvd,
           getOtherUsername_join_right u v hne hu hv hud hvd⟩

/-- Witness for **C2** at the concrete pair `"alice"`, `"bob"`. -/
theorem getOtherUsername_roundTrip_witness :
    getOtherUsername (chatIdOf "alice".data "bob".data) "alice".data = some "bob".data ∧
    getOtherUsername (chatIdOf "alice".data "bob".data) "bob".data = some "alice".data :=
  getOtherUsername_roundTrip "alice".data "bob".data (by decide) (by decide) (by decide)
    (by decide) (by decide)

/-- **C3.** When a username contains the underscore join delimiter, the
derivation silently breaks: for the concrete distinct pair `"a_b"` and
`"c"`, the derivation still produces an identifier (no rejection of the
delimiter-containing username), yet `getOtherUsername` applied to that
identifier and either participant fails to return the other participant. -/
theorem delimiter_in_username_breaks_roundTrip :
    "a_b".data ≠ "c".data ∧ '_' ∈ "a_b".data ∧
    chatIdOf "a_b".data "c".data = "a_b_c".data ∧
    getOtherUsername (chatIdOf "a_b".data "c".data) "a_b".data ≠ some "c".data ∧
    getOtherUsername (chatIdOf "a_b".data "c".data) "c".data ≠ some "a_b".data := by
  decide

/-!
Firestore glue.  The document database is embedded as explicit state:
association lists keyed by document id, a `now` counter standing for
`serverTimestamp()`, and failure injection for the external calls
(`addDoc`, `setDoc`, `getDocs`) whose errors the code catches.
-/

/-- An opaque error raised by an external service. -/
inductive ExtErr where
  | err : Nat → ExtErr
  deriving DecidableEq

/-- A message document of the `messages` subcollection. -/
structure MessageDoc where
  senderName : String
  senderPhoto : String
  text : String
  timestamp : Nat
  mediaUrl : Option String
  mediaId : Option String
  deriving DecidableEq

/-- The chat-document fields written by the messaging operations. -/
structure ChatMeta where
  lastMessage : String
  lastUpdated : Nat
  deriving DecidableEq

/-- The slice of Firestore state the messaging operations touch. -/
structure FsState where
  chatMeta : List (String × ChatMeta)
  messages : List (String × List MessageDoc)
  now : Nat
  deriving DecidableEq

/-- `setDoc(..., { merge: true })` keyed lookup-or-append on an
association list: replace the value at the key if present, else append. -/
def setAssoc {β : Type} (l : List (String × β)) (k : String) (v : β) : List (String × β) :=
  if l.any (fun p => p.1 == k) then l.map (fun p => if p.1 == k then (k, v) else p)
  else l ++ [(k, v)]

/-- The `messages` subcollection of a chat (empty when absent). -/
def getMessages (st : FsState) (chatId : String) : List MessageDoc :=
  ((st.messages.find? (fun p => p.1 == chatId)).map Prod.snd).getD []

/-- `addDoc(collection(db, "chats", chatId, "messages"), m)`: append a
message document; the server assigns the timestamp `st.now`. -/
def addMessage (st : FsState) (chatId : String) (m : MessageDoc) : FsState :=
  { st with
    messages := setAssoc st.messages chatId (getMessages st chatId ++ [m])
    now := st.now + 1 }

/-- `setDoc(doc(db, "chats", chatId), { lastMessage, lastUpdated:
serverTimestamp() }, { merge: true })`. -/
def setChatMerge (st : FsState) (chatId : String) (lastMessage : String) : FsState :=
  { st with
    chatMeta := setAssoc st.chatMeta chatId { lastMessage := lastMessage, lastUpdated := st.now }
    now := st.now + 1 }

/-- The `lastMessage` field of a chat document, when the document exists. -/
def chatLastMessage (st : FsState) (chatId : String) : Option String :=
  (st.chatMeta.find? (fun p => p.1 == chatId)).map (fun p => p.2.lastMessage)

/-- JavaScript `text.trim()`: the string with whitespace stripped from
both ends, written over the character data so that it evaluates. -/
def jsTrim (s : String) : String :=
  ⟨((s.data.dropWhile Char.isWhitespace).reverse.dropWhile Char.isWhitespace).reverse⟩

/-- Failure injection for the two external writes a send operation makes. -/
structure SendEnv where
  addDocErr : Option ExtErr
  setDocErr : Option ExtErr
  deriving DecidableEq

/-- The environment in which both external writes succeed. -/
def envOk : SendEnv := { addDocErr := none, setDocErr := none }

/-- `sender` as passed to `sendMessage`. -/
structure MessageSender where
  name : String
  photo : String
  deriving DecidableEq

/-- `mediaData` as passed to `sendMessageWithMedia`. -/
structure MediaData where
  name : String
  photo : String
  mediaUrl : String
  mediaId : String
  deriving DecidableEq

/-- `sendMessage` (src/src/lib/api.ts lines 172-206): guard on empty
`chatId`, whitespace-only `text` or empty `sender.name` returns without
writing; otherwise append the trimmed message and merge the chat metadata
with a 100-character `lastMessage` preview; the `catch` block logs the
external error and rethrows it (`throw error`), which the result's
`Except` component records. -/
def sendMessage (env : SendEnv) (st : FsState) (chatId text : String)
    (sender : MessageSender) : FsState × Except ExtErr Unit :=
  if chatId = "" ∨ jsTrim text = "" ∨ sender.name = "" then (st, .ok ())
  else
    match env.addDocErr with
    | some e => (st, .error e)
    | none =>
      let st1 := addMessage st chatId
        { senderName := sender.name, senderPhoto := sender.photo,
          text := jsTrim text, timestamp := st.now, mediaUrl := none, mediaId := none }
      match env.setDocErr with
      | some e => (st1, .error e)
      | none => (setChatMerge st1 chatId ((jsTrim text).take 100), .ok ())

/-- The fixed preview text stored when a media message has no caption. -/
def attachmentPlaceholder : String := "📎 Sent an attachment"

/-- `sendMessageWithMedia` (src/src/lib/api.ts lines 214-250): guard on
empty `chatId`, `mediaData.mediaUrl` or `mediaData.name`; otherwise append
the media message and merge the chat metadata, with `text.trim() ||
"📎 Sent an attachment"` as the preview; the `catch` block rethrows. -/
def sendMessageWithMedia (env : SendEnv) (st : FsState) (chatId text : String)
    (mediaData : MediaData) : FsState × Except ExtErr Unit :=
  if chatId = "" ∨ mediaData.mediaUrl = "" ∨ mediaData.name = "" then (st, .ok ())
  else
    match env.addDocErr with
    | some e => (st, .error e)
    | none =>
      let st1 := addMessage st chatId
        { senderName := mediaData.name, senderPhoto := mediaData.photo,
          text := jsTrim text, timestamp := st.now,
          mediaUrl := some mediaData.mediaUrl, mediaId := some mediaData.mediaId }
      match env.setDocErr with
      | some e => (st1, .error e)
      | none =>
        (setChatMerge st1 chatId (if jsTrim text = "" then attachmentPlaceholder else jsTrim text),
         .ok ())

/-- A user profile document, keyed in the `users` collection by the
authenticated uid. -/
structure UserDoc where
  uid : String
  email : String
  displayName : String
  photoURL : String
  username : String
  deriving DecidableEq

/-- `getUsernameByEmail` (src/src/lib/api.ts lines 73-97): empty email or
a failing `getDocs` call (whose error the `catch` block logs) yields
`null`; otherwise the username of the first document matching the email,
or `null` when none matches. -/
def getUsernameByEmail (getDocsErr : Option ExtErr) (users : List (String × UserDoc))
    (email : String) : Option String :=
  if email = "" then none
  else
    match getDocsErr with
    | some _ => none
    | none =>
      match users.find? (fun p => p.2.email == email) with
      | none => none
      | some p => some p.2.username

theorem find?_map_replace {β : Type} (k : String) (v : β) :
    ∀ l : List (String × β), l.any (fun p => p.1 == k) = true →
      (l.map (fun p => if p.1 == k then (k, v) else p)).find? (fun p => p.1 == k)
        = some (k, v) := by
  intro l
  induction l with
  | nil => intro h; simp at h
  | cons q qs ih =>
    intro h
    cases hq : (q.1 == k) with
    | true => simp [List.find?, hq]
    | false =>
      have htail : qs.any (fun p => p.1 == k) = true := by
        simpa [List.any_cons, hq] using h
      simp only [List.map_cons]
      rw [if_neg (by simp [hq] : ¬ (q.1 == k) = true),
        List.find?_cons_of_neg _ (by simp [hq])]
      exact ih htail

theorem find?_setAssoc_self {β : Type} (l : List (String × β)) (k : String) (v : β) :
    (setAssoc l k v).find? (fun p => p.1 == k) = some (k, v) := by
  unfold setAssoc
  cases h : l.any (fun p => p.1 == k) with
  | true =>
    rw [if_pos rfl]
    exact find?_map_replace k v l h
  | false =>
    rw [if_neg (by simp)]
    have hnone : l.find? (fun p => p.1 == k) = none := by
      rw [List.find?_eq_none]
      intro x hx
      intro hxk
      have : l.any (fun p => p.1 == k) = true := List.any_of_mem hx hxk
      rw [h] at this
      exact Bool.false_ne_true this
    simp [List.find?_append, hnone, List.find?]

theorem getMessages_addMessage (st : FsState) (chatId : String) (m : MessageDoc) :
    getMessages (addMessage st chatId m) chatId = getMessages st chatId ++ [m] := by
  show (((setAssoc st.messages chatId (getMessages st chatId ++ [m])).find?
          (fun p => p.1 == chatId)).map Prod.snd).getD []
      = getMessages st chatId ++ [m]
  rw [find?_setAssoc_self]
  rfl

theorem getMessages_setChatMerge (st : FsState) (c : String) (lm : String) (c' : String) :
    getMessages (setChatMerge st c lm) c' = getMessages st c' := rfl

theorem chatLastMessage_setChatMerge (st : FsState) (chatId : String) (lm : String) :
    chatLastMessage (setChatMerge st chatId lm) chatId = some lm := by
  show ((setAssoc st.chatMeta chatId { lastMessage := lm, lastUpdated := st.now }).find?
          (fun p => p.1 == chatId)).map (fun p => p.2.lastMessage) = some lm
  rw [find?_setAssoc_self]
  rfl

/-- **C8.** After every successful `sendMessage`, the chat document's
`lastMessage` equals the first 100 characters of the trimmed text while
the stored message document keeps the full trimmed text; after every
successful `sendMessageWithMedia`, `lastMessage` equals the trimmed text,
or the fixed attachment placeholder when the trimmed text is empty. -/
theorem lastMessage_preview_after_send :
    (∀ (st : FsState) (chatId text : String) (sender : MessageSender),
        chatId ≠ "" → jsTrim text ≠ "" → sender.name ≠ "" →
        (sendMessage envOk st chatId text sender).2 = .ok () ∧
        chatLastMessage (sendMessage envOk st chatId text sender).1 chatId
          = some ((jsTrim text).take 100) ∧
        getMessages (sendMessage envOk st chatId text sender).1 chatId
          = getMessages st chatId ++
              [{ senderName := sender.name, senderPhoto := sender.photo, text := jsTrim text,
                 timestamp := st.now, mediaUrl := none, mediaId := none }]) ∧
    (∀ (st : FsState) (chatId text : String) (mediaData : MediaData),
        chatId ≠ "" → mediaData.mediaUrl ≠ "" → mediaData.name ≠ "" →
        (sendMessageWithMedia envOk st chatId text mediaData).2 = .ok () ∧
        chatLastMessage (sendMessageWithMedia envOk st chatId text mediaData).1 chatId
          = some (if jsTrim text = "" then attachmentPlaceholder else jsTrim text)) := by
  constructor
  · intro st chatId text sender hc ht hn
    have hguard : ¬(chatId = "" ∨ jsTrim text = "" ∨ sender.name = "") := by simp [hc, ht, hn]
    refine ⟨?_, ?_, ?_⟩
    · simp [sendMessage, envOk, hguard]
    · simp [sendMessage, envOk, hguard, chatLastMessage_setChatMerge]
    · simp [sendMessage, envOk, hguard, getMessages_setChatMerge, getMessages_addMessage]
  · intro st chatId text mediaData hc hm hn
    have hguard : ¬(chatId = "" ∨ mediaData.mediaUrl = "" ∨ mediaData.name = "") := by
      simp [hc, hm, hn]
    refine ⟨?_, ?_⟩
    · simp [sendMessageWithMedia, envOk, hguard]
    · simp [sendMessageWithMedia, envOk, hguard, chatLastMessage_setChatMerge]

/-- Witness for **C8** at a concrete state, chat, text and sender. -/
theorem lastMessage_preview_after_send_witness :
    ((sendMessage envOk ⟨[], [], 0⟩ "alice_bob" " hi " ⟨"alice", "ph"⟩).2 = .ok () ∧
     chatLastMessage (sendMessage envOk ⟨[], [], 0⟩ "alice_bob" " hi " ⟨"alice", "ph"⟩).1 "alice_bob"
       = some ((jsTrim " hi ").take 100) ∧
     getMessages (sendMessage envOk ⟨[], [], 0⟩ "alice_bob" " hi " ⟨"alice", "ph"⟩).1 "alice_bob"
       = getMessages ⟨[], [], 0⟩ "alice_bob" ++
           [{ senderName := "alice", senderPhoto := "ph", text := jsTrim " hi ",
              timestamp := 0, mediaUrl := none, mediaId := none }]) ∧
    ((sendMessageWithMedia envOk ⟨[], [], 0⟩ "alice_bob" "" ⟨"alice", "ph", "http://m", "id1"⟩).2
       = .ok () ∧
     chatLastMessage
         (sendMessageWithMedia envOk ⟨[], [], 0⟩ "alice_bob" "" ⟨"alice", "ph", "http://m", "id1"⟩).1
         "alice_bob"
       = some (if jsTrim "" = "" then attachmentPlaceholder else jsTrim "")) :=
  ⟨lastMessage_preview_after_send.1 ⟨[], [], 0⟩ "alice_bob" " hi " ⟨"alice", "ph"⟩
     (by decide) (by decide) (by decide),
   lastMessage_preview_after_send.2 ⟨[], [], 0⟩ "alice_bob" "" ⟨"alice", "ph", "http://m", "id1"⟩
     (by decide) (by decide) (by decide)⟩

/-- **C9.** `sendMessage` is a total no-op on invalid input: empty chat id,
whitespace-only text or empty sender name returns normally with the state
untouched, whatever the external services would have done. -/
theorem sendMessage_noop_on_invalid_input (env : SendEnv) (st : FsState)
    (chatId text : String) (sender : MessageSender)
    (h : chatId = "" ∨ jsTrim text = "" ∨ sender.name = "") :
    sendMessage env st chatId text sender = (st, .ok ()) := by
  unfold sendMessage
  rw [if_pos h]

/-- Witness for **C9** at a whitespace-only text. -/
theorem sendMessage_noop_on_invalid_input_witness :
    sendMessage ⟨some (.err 5), none⟩ ⟨[], [], 0⟩ "alice_bob" "  " ⟨"alice", "ph"⟩
      = (⟨[], [], 0⟩, .ok ()) :=
  sendMessage_noop_on_invalid_input ⟨some (.err 5), none⟩ ⟨[], [], 0⟩ "alice_bob" "  "
    ⟨"alice", "ph"⟩ (Or.inr (Or.inl (by decide)))

/-- A file selected for upload: its byte size and MIME type. -/
structure JsFile where
  size : Nat
  type : String
  deriving DecidableEq

/-- The value `uploadToCloudinary` resolves with on success. -/
structure CloudinaryUploadResponse where
  url : String
  type : String
  publicId : String
  deriving DecidableEq

/-- The JSON body the upload endpoint answers with. -/
structure CloudResp where
  respOk : Bool
  errorMessage : Option String
  secureUrl : Option String
  url : String
  resourceType : String
  publicId : String
  deriving DecidableEq

/-- The errors `uploadToCloudinary` can throw. -/
inductive UploadErr where
  | notConfigured
  | tooLarge
  | invalidType
  | uploadFailed (msg : String)
  | ext (e : ExtErr)
  deriving DecidableEq

/-- The allowed MIME types (src/src/lib/api.ts line 405). -/
def validTypes : List String :=
  ["image/jpeg", "image/png", "image/gif", "image/webp", "video/mp4"]

/-- `uploadToCloudinary` (src/src/lib/api.ts lines 388-439): reject a
missing (or falsy empty) cloud name, a file over `10 * 1024 * 1024` bytes,
or a MIME type outside `validTypes`, all before the `fetch`; otherwise
perform the request (recorded by the Boolean), rethrowing a failed fetch
and throwing on a non-ok response.  `fetchResult` injects the external
endpoint's behaviour. -/
def uploadToCloudinary (cloudName uploadPreset : Option String) (file : JsFile)
    (fetchResult : Except ExtErr CloudResp) :
    Bool × Except UploadErr CloudinaryUploadResponse :=
  let _preset := uploadPreset.getD "pagecord-images"
  if cloudName = none ∨ cloudName = some "" then (false, .error .notConfigured)
  else if file.size > 10 * 1024 * 1024 then (false, .error .tooLarge)
  else if !(validTypes.contains file.type) then (false, .error .invalidType)
  else
    match fetchResult with
    | .error e => (true, .error (.ext e))
    | .ok resp =>
      if !resp.respOk then
        (true, .error (.uploadFailed (resp.errorMessage.getD "Upload failed")))
      else
        (true, .ok { url := resp.secureUrl.getD resp.url, type := resp.resourceType,
                     publicId := resp.publicId })

/-- **C4, counterexample.** `sendMessage` does not convert an external
error into a null/empty return: when the `addDoc` call fails, the caught
error is rethrown to the caller, so the claim that no operation propagates
an external-service error is false at this concrete input. -/
theorem sendMessage_rethrows_cex :
    ("alice_bob" : String) ≠ "" ∧ jsTrim "hi" ≠ "" ∧ ("alice" : String) ≠ "" ∧
    (sendMessage ⟨some (.err 7), none⟩ ⟨[], [], 0⟩ "alice_bob" "hi" ⟨"alice", "ph"⟩).2
      = .error (.err 7) := by
  refine ⟨by decide, by decide, by decide, rfl⟩

/-- **C4, amended.** Errors from the external services are caught at each
call site: `getUsernameByEmail` converts them into a null return, but
`sendMessage`, `sendMessageWithMedia` and `uploadToCloudinary` rethrow the
caught error to their caller. -/
theorem external_errors_caught_logged_rethrown :
    (∀ (e : ExtErr) (users : List (String × UserDoc)) (email : String),
        email ≠ "" → getUsernameByEmail (some e) users email = none) ∧
    (∀ (e : ExtErr) (st : FsState) (chatId text : String) (sender : MessageSender),
        chatId ≠ "" → jsTrim text ≠ "" → sender.name ≠ "" →
        (sendMessage ⟨some e, none⟩ st chatId text sender).2 = .error e ∧
        (sendMessage ⟨none, some e⟩ st chatId text sender).2 = .error e) ∧
    (∀ (e : ExtErr) (st : FsState) (chatId text : String) (mediaData : MediaData),
        chatId ≠ "" → mediaData.mediaUrl ≠ "" → mediaData.name ≠ "" →
        (sendMessageWithMedia ⟨some e, none⟩ st chatId text mediaData).2 = .error e) ∧
    (∀ (e : ExtErr) (cloudName : String) (uploadPreset : Option String) (file : JsFile),
        cloudName ≠ "" → file.size ≤ 10 * 1024 * 1024 → validTypes.contains file.type = true →
        (uploadToCloudinary (some cloudName) uploadPreset file (.error e)).2
          = .error (.ext e)) := by
  refine ⟨?_, ?_, ?_, ?_⟩
  · intro e users email he
    simp [getUsernameByEmail, he]
  · intro e st chatId text sender hc ht hn
    have hguard : ¬(chatId = "" ∨ jsTrim text = "" ∨ sender.name = "") := by simp [hc, ht, hn]
    exact ⟨by simp [sendMessage, hguard], by simp [sendMessage, hguard]⟩
  · intro e st chatId text mediaData hc hm hn
    have hguard : ¬(chatId = "" ∨ mediaData.mediaUrl = "" ∨ mediaData.name = "") := by
      simp [hc, hm, hn]
    simp [sendMessageWithMedia, hguard]
  · intro e cloudName uploadPreset file hc hs htype
    have h1 : ¬(some cloudName = none ∨ some cloudName = some "") := by simp [hc]
    have h2 : ¬(file.size > 10 * 1024 * 1024) := by omega
    have hmem : file.type ∈ validTypes := by simpa using htype
    simp [uploadToCloudinary, h1, h2, hc, hmem]

/-- Witness for the amended **C4** at concrete inputs. -/
theorem external_errors_caught_logged_rethrown_witness :
    getUsernameByEmail (some (.err 1)) [] "a@b.c" = none ∧
    (sendMessage ⟨some (.err 2), none⟩ ⟨[], [], 0⟩ "alice_bob" "hi" ⟨"alice", "ph"⟩).2
      = .error (.err 2) ∧
    (sendMessageWithMedia ⟨some (.err 3), none⟩ ⟨[], [], 0⟩ "alice_bob" "hi"
        ⟨"alice", "ph", "http://m", "id1"⟩).2 = .error (.err 3) ∧
    (uploadToCloudinary (some "demo") none ⟨5, "image/png"⟩ (.error (.err 4))).2
      = .error (.ext (.err 4)) :=
  ⟨external_errors_caught_logged_rethrown.1 (.err 1) [] "a@b.c" (by decide),
   (external_errors_caught_logged_rethrown.2.1 (.err 2) ⟨[], [], 0⟩ "alice_bob" "hi"
      ⟨"alice", "ph"⟩ (by decide) (by decide) (by decide)).1,
   external_errors_caught_logged_rethrown.2.2.1 (.err 3) ⟨[], [], 0⟩ "alice_bob" "hi"
     ⟨"alice", "ph", "http://m", "id1"⟩ (by decide) (by decide) (by decide),
   external_errors_caught_logged_rethrown.2.2.2 (.err 4) "demo" none ⟨5, "image/png"⟩
     (by decide) (by decide) (by decide)⟩

/-- **C5.** `uploadToCloudinary` validates size and type before forwarding
to the third-party endpoint: an oversized file or a MIME type outside the
allow-list makes it throw, and no upload request is performed. -/
theorem upload_validates_before_request (cloudName uploadPreset : Option String)
    (file : JsFile) (fetchResult : Except ExtErr CloudResp)
    (h : 10 * 1024 * 1024 < file.size ∨ validTypes.contains file.type = false) :
    (uploadToCloudinary cloudName uploadPreset file fetchResult).1 = false ∧
    ∃ err, (uploadToCloudinary cloudName uploadPreset file fetchResult).2 = .error err := by
  unfold uploadToCloudinary
  by_cases h1 : cloudName = none ∨ cloudName = some ""
  · rw [if_pos h1]
    exact ⟨rfl, .notConfigured, rfl⟩
  · rw [if_neg h1]
    by_cases h2 : file.size > 10 * 1024 * 1024
    · rw [if_pos h2]
      exact ⟨rfl, .tooLarge, rfl⟩
    · rw [if_neg h2]
      have h3 : validTypes.contains file.type = false := by
        rcases h with h | h
        · exact absurd h h2
        · exact h
      rw [if_pos (by simpa using h3)]
      exact ⟨rfl, .invalidType, rfl⟩

/-- Witness for **C5** at an 11 MB png and at a pdf MIME type. -/
theorem upload_validates_before_request_witness :
    ((uploadToCloudinary (some "demo") none ⟨11534336, "image/png"⟩ (.ok ⟨true, none, none, "u", "image", "p"⟩)).1 = false ∧
     ∃ err, (uploadToCloudinary (some "demo") none ⟨11534336, "image/png"⟩ (.ok ⟨true, none, none, "u", "image", "p"⟩)).2 = .error err) ∧
    ((uploadToCloudinary (some "demo") none ⟨5, "application/pdf"⟩ (.ok ⟨true, none, none, "u", "image", "p"⟩)).1 = false ∧
     ∃ err, (uploadToCloudinary (some "demo") none ⟨5, "application/pdf"⟩ (.ok ⟨true, none, none, "u", "image", "p"⟩)).2 = .error err) :=
  ⟨upload_validates_before_request (some "demo") none ⟨11534336, "image/png"⟩
     (.ok ⟨true, none, none, "u", "image", "p"⟩) (Or.inl (by decide)),
   upload_validates_before_request (some "demo") none ⟨5, "application/pdf"⟩
     (.ok ⟨true, none, none, "u", "image", "p"⟩) (Or.inr (by decide))⟩

/-- The user returned by the identity provider's popup sign-in. -/
structure GUser where
  uid : String
  email : String
  displayName : String
  photoURL : String
  deriving DecidableEq

/-- What an auth handler does after its awaits settle. -/
inductive AuthOutcome where
  | navigate (route : String)
  | showError (msg : String)
  deriving DecidableEq

/-- JavaScript `username.toLowerCase()`, written over the character data
so that it evaluates. -/
def jsToLower (s : String) : String := ⟨s.data.map Char.toLower⟩

/-- The profile document `handleSignup` writes at `doc(db, "users",
user.uid)` (src/src/app/login/page.tsx lines 49-57). -/
def mkProfile (user : GUser) (username : String) : UserDoc :=
  { uid := user.uid, email := user.email, displayName := user.displayName,
    photoURL := user.photoURL, username := jsToLower username }

/-- `handleSignup` (src/src/app/login/page.tsx lines 22-64): reject a
username under 3 characters, then a taken username (read of the `users`
collection), then run the popup; on success write the profile document
keyed by the authenticated uid and navigate.  The `users` collection is an
association list keyed by document id. -/
def handleSignup (username : String) (popup : Except ExtErr GUser)
    (users : List (String × UserDoc)) : List (String × UserDoc) × AuthOutcome :=
  if username.length < 3 then (users, .showError "Username must be at least 3 characters.")
  else if users.any (fun p => p.2.username == jsToLower username) then
    (users, .showError "Username is already taken.")
  else
    match popup with
    | .error _ => (users, .showError "Signup failed. Ensure you chose a Google account.")
    | .ok user => (setAssoc users user.uid (mkProfile user username), .navigate "/me")

/-- `handleLogin` (src/src/app/login/page.tsx lines 67-87): run the popup,
point-read the profile document at the authenticated uid, navigate when it
exists and show an error when it does not; no write is performed. -/
def handleLogin (popup : Except ExtErr GUser) (users : List (String × UserDoc)) :
    List (String × UserDoc) × AuthOutcome :=
  match popup with
  | .error _ => (users, .showError "Login failed.")
  | .ok user =>
    match users.find? (fun p => p.1 == user.uid) with
    | none =>
      (users, .showError "No account found with this Google email. Please Sign Up first.")
    | some _ => (users, .navigate "/me")

/-- **C7.** The auth gate: the signup flow writes a profile document keyed
by the authenticated uid and navigates; the login flow never writes, and
navigates exactly when the profile document exists, showing an error
otherwise. -/
theorem auth_gate_signup_writes_login_only_checks :
    (∀ (username : String) (user : GUser) (users : List (String × UserDoc)),
        3 ≤ username.length →
        users.any (fun p => p.2.username == jsToLower username) = false →
        (handleSignup username (.ok user) users).2 = .navigate "/me" ∧
        (handleSignup username (.ok user) users).1.find? (fun p => p.1 == user.uid)
          = some (user.uid, mkProfile user username)) ∧
    (∀ (popup : Except ExtErr GUser) (users : List (String × UserDoc)),
        (handleLogin popup users).1 = users) ∧
    (∀ (user : GUser) (users : List (String × UserDoc)),
        ((handleLogin (.ok user) users).2 = .navigate "/me" ↔
          (users.find? (fun p => p.1 == user.uid)).isSome) ∧
        (users.find? (fun p => p.1 == user.uid) = none →
          (handleLogin (.ok user) users).2
            = .showError "No account found with this Google email. Please Sign Up first.")) := by
  refine ⟨?_, ?_, ?_⟩
  · intro username user users hlen hfree
    have h1 : ¬(username.length < 3) := by omega
    constructor
    · simp [handleSignup, h1, hfree]
    · simp only [handleSignup, if_neg h1, hfree, Bool.false_eq_true, if_false]
      exact find?_setAssoc_self users user.uid (mkProfile user username)
  · intro popup users
    cases popup with
    | error e => rfl
    | ok user =>
      cases h : users.find? (fun p => p.1 == user.uid) with
      | none => simp [handleLogin, h]
      | some q => simp [handleLogin, h]
  · intro user users
    cases hf : users.find? (fun p => p.1 == user.uid) with
    | none =>
      refine ⟨⟨fun hnav => ?_, fun hsome => ?_⟩, fun _ => ?_⟩
      · simp [handleLogin, hf] at hnav
      · simp [hf] at hsome
      · simp [handleLogin, hf]
    | some q =>
      refine ⟨⟨fun _ => ?_, fun _ => ?_⟩, fun hnone => ?_⟩
      · simp [hf]
      · simp [handleLogin, hf]
      · simp at hnone

/-- Witness for **C7**: a fresh signup as `"Bob"` and logins with and
without an existing profile document. -/
theorem auth_gate_signup_writes_login_only_checks_witness :
    ((handleSignup "Bob" (.ok ⟨"uid1", "b@c.d", "Bob D", "ph"⟩) []).2
       = .navigate "/me" ∧
     (handleSignup "Bob" (.ok ⟨"uid1", "b@c.d", "Bob D", "ph"⟩) []).1.find?
         (fun p => p.1 == "uid1")
       = some ("uid1", mkProfile ⟨"uid1", "b@c.d", "Bob D", "ph"⟩ "Bob")) ∧
    (handleLogin (.ok ⟨"uid1", "b@c.d", "Bob D", "ph"⟩) []).1 = [] ∧
    ((handleLogin (.ok ⟨"uid1", "b@c.d", "Bob D", "ph"⟩) []).2 = .navigate "/me" ↔
      (([] : List (String × UserDoc)).find? (fun p => p.1 == "uid1")).isSome) :=
  ⟨auth_gate_signup_writes_login_only_checks.1 "Bob" ⟨"uid1", "b@c.d", "Bob D", "ph"⟩ []
     (by decide) (by decide),
   auth_gate_signup_writes_login_only_checks.2.1 (.ok ⟨"uid1", "b@c.d", "Bob D", "ph"⟩) [],
   (auth_gate_signup_writes_login_only_checks.2.2 ⟨"uid1", "b@c.d", "Bob D", "ph"⟩ []).1⟩

/-- The program counter of an in-flight signup: before the uniqueness
read, past it (about to write), finished, or stopped at the check. -/
inductive SigPC where
  | start
  | passedCheck
  | done
  | aborted
  deriving DecidableEq

/-- One signup attempt: its progress, chosen username and popup user. -/
structure SigThread where
  pc : SigPC
  username : String
  user : GUser
  deriving DecidableEq

/-- One atomic step of a signup attempt against the shared `users`
collection: the `.start` step is the client-side length check plus the
uniqueness read (`getDocs` of the username query), the `.passedCheck` step
is the profile write (`setDoc`); nothing ties the two together — there is
no transaction. -/
def sigStep (users : List (String × UserDoc)) (t : SigThread) :
    List (String × UserDoc) × SigThread :=
  match t.pc with
  | .start =>
    if t.username.length < 3 then (users, { t with pc := .aborted })
    else if users.any (fun p => p.2.username == jsToLower t.username) then
      (users, { t with pc := .aborted })
    else (users, { t with pc := .passedCheck })
  | .passedCheck =>
    (setAssoc users t.user.uid (mkProfile t.user t.username), { t with pc := .done })
  | _ => (users, t)

/-- Run two concurrent signup attempts under a schedule: `true` steps the
first thread, `false` the second. -/
def runSchedule : List Bool → List (String × UserDoc) → SigThread → SigThread →
    List (String × UserDoc) × SigThread × SigThread
  | [], users, t1, t2 => (users, t1, t2)
  | pick :: rest, users, t1, t2 =>
    if pick then
      let r := sigStep users t1
      runSchedule rest r.1 r.2 t2
    else
      let r := sigStep users t2
      runSchedule rest r.1 t1 r.2

/-- **C10.** The read-then-write username-uniqueness check races: under
the interleaving read-read-write-write, two signups choosing the username
`"bob"` both pass the emptiness check and both create profile documents
carrying that username, while the sequential schedule lets the check stop
the second signup — uniqueness is not an invariant upheld under
interleaving. -/
theorem signup_uniqueness_check_races :
    (runSchedule [true, false, true, false] []
        ⟨.start, "bob", ⟨"uid1", "e1", "d1", "p1"⟩⟩
        ⟨.start, "bob", ⟨"uid2", "e2", "d2", "p2"⟩⟩).2.1.pc = .done ∧
    (runSchedule [true, false, true, false] []
        ⟨.start, "bob", ⟨"uid1", "e1", "d1", "p1"⟩⟩
        ⟨.start, "bob", ⟨"uid2", "e2", "d2", "p2"⟩⟩).2.2.pc = .done ∧
    (runSchedule [true, false, true, false] []
        ⟨.start, "bob", ⟨"uid1", "e1", "d1", "p1"⟩⟩
        ⟨.start, "bob", ⟨"uid2", "e2", "d2", "p2"⟩⟩).1.countP
      (fun p => p.2.username == "bob") = 2 ∧
    (runSchedule [true, true, false, false] []
        ⟨.start, "bob", ⟨"uid1", "e1", "d1", "p1"⟩⟩
        ⟨.start, "bob", ⟨"uid2", "e2", "d2", "p2"⟩⟩).2.2.pc = .aborted ∧
    (runSchedule [true, true, false, false] []
        ⟨.start, "bob", ⟨"uid1", "e1", "d1", "p1"⟩⟩
        ⟨.start, "bob", ⟨"uid2", "e2", "d2", "p2"⟩⟩).1.countP
      (fun p => p.2.username == "bob") = 1 := by decide

/-- Ascending order on snapshot documents (id paired with data) by the
`timestamp` field, as requested by `orderBy("timestamp", "asc")`. -/
def tsLeDoc (a b : String × MessageDoc) : Prop := a.2.timestamp ≤ b.2.timestamp

/-- Ascending order on message payloads by the `timestamp` field. -/
def tsLeMsg (a b : MessageDoc) : Prop := a.timestamp ≤ b.timestamp

instance : DecidableRel tsLeDoc :=
  fun a b => inferInstanceAs (Decidable (a.2.timestamp ≤ b.2.timestamp))

instance : DecidableRel tsLeMsg :=
  fun a b => inferInstanceAs (Decidable (a.timestamp ≤ b.timestamp))

instance : IsTotal (String × MessageDoc) tsLeDoc :=
  ⟨fun a b => Nat.le_total a.2.timestamp b.2.timestamp⟩

instance : IsTrans (String × MessageDoc) tsLeDoc :=
  ⟨fun _ _ _ hab hbc => Nat.le_trans hab hbc⟩

instance : IsTotal MessageDoc tsLeMsg :=
  ⟨fun a b => Nat.le_total a.timestamp b.timestamp⟩

instance : IsTrans MessageDoc tsLeMsg :=
  ⟨fun _ _ _ hab hbc => Nat.le_trans hab hbc⟩

/-- The snapshot the database delivers for the query
`query(messagesRef, orderBy("timestamp", "asc"))`: the `messages`
subcollection documents in ascending timestamp order (a stable sort). -/
def orderByTimestampAsc (docs : List (String × MessageDoc)) : List (String × MessageDoc) :=
  List.insertionSort tsLeDoc docs

/-- The snapshot handler of `subscribeToMessages` (src/src/lib/api.ts
lines 270-278): `snapshot.docs.map((doc) => ({ ...doc.data() }))` — the
payload of every document of the ordered snapshot, ids dropped. -/
def deliveredMessages (docs : List (String × MessageDoc)) : List MessageDoc :=
  (orderByTimestampAsc docs).map Prod.snd

/-- Sorting bare message payloads by timestamp. -/
def sortMessagesByTimestamp (msgs : List MessageDoc) : List MessageDoc :=
  List.insertionSort tsLeMsg msgs

theorem map_snd_orderedInsert (a : String × MessageDoc) :
    ∀ l : List (String × MessageDoc),
      (List.orderedInsert tsLeDoc a l).map Prod.snd
        = List.orderedInsert tsLeMsg a.2 (l.map Prod.snd) := by
  intro l
  induction l with
  | nil => rfl
  | cons b bs ih =>
    by_cases h : a.2.timestamp ≤ b.2.timestamp
    · have h1 : tsLeDoc a b := h
      have h2 : tsLeMsg a.2 b.2 := h
      simp [List.orderedInsert, h1, h2]
    · have h1 : ¬tsLeDoc a b := h
      have h2 : ¬tsLeMsg a.2 b.2 := h
      simp [List.orderedInsert, h1, h2, ih]

theorem map_snd_insertionSort :
    ∀ docs : List (String × MessageDoc),
      (List.insertionSort tsLeDoc docs).map Prod.snd
        = List.insertionSort tsLeMsg (docs.map Prod.snd) := by
  intro docs
  induction docs with
  | nil => rfl
  | cons d ds ih =>
    simp only [List.insertionSort, List.map_cons, ← ih, map_snd_orderedInsert]

/-- **C6.** Every snapshot `subscribeToMessages` hands to the callback is
the chat's message subcollection sorted in ascending `timestamp` order:
the delivered list is sorted by timestamp, is a permutation of the stored
payloads, and factors through the payloads alone — document identifiers
play no part in the ordering. -/
theorem subscribeToMessages_sorted_by_timestamp (docs : List (String × MessageDoc)) :
    List.Sorted tsLeMsg (deliveredMessages docs) ∧
    (deliveredMessages docs).Perm (docs.map Prod.snd) ∧
    deliveredMessages docs = sortMessagesByTimestamp (docs.map Prod.snd) := by
  have h3 : deliveredMessages docs = sortMessagesByTimestamp (docs.map Prod.snd) :=
    map_snd_insertionSort docs
  refine ⟨?_, ?_, h3⟩
  · rw [h3]
    exact List.sorted_insertionSort tsLeMsg (docs.map Prod.snd)
  · rw [h3]
    exact List.perm_insertionSort tsLeMsg (docs.map Prod.snd)
